import Mathlib

/-!
Verification of the record normalization and deduplication pipeline of the
birth-certificate scanning service ("scan-actas-nacimiento").

The development shallowly embeds the Python sources:
  - `config.py` (`Config.ENCABEZADOS`, `Config.MAX_REGISTROS_MEMORIA`,
    `KeyMapping.MAPEO_CLAVES`, `KeyMapping.normalizar_clave`),
  - `models/registro.py` (`RegistroActa`, `RegistroManager.agregar`,
    `RegistroManager.obtener_todos`, `RegistroManager.crear_desde_dict`),
  - `services/data_parser.py` (`DataParser.parsear_qr`,
    `DataParser.parsear_texto_acta`, `DataParser._convertir_fecha`),
  - `app.py` (the historical monolithic variant: `normalizar_clave`,
    `parsear_qr`, `guardar_registro`, `obtener_registros`,
    `parsear_texto_acta`, `convertir_fecha`).

Python dictionaries are modelled as association lists in insertion order;
Python strings as `String`/`List Char`.  The scan timestamp produced by
`datetime.now().strftime('%Y-%m-%d %H:%M:%S')` is an explicit parameter of
the embedded parsers.  The regular expressions of the sources are embedded
by bespoke matchers whose search/backtracking order follows Python's `re`
(leftmost match, greedy/lazy quantifier order); character classes are
restricted to the ASCII range plus the accented Spanish letters that occur
in the data handled by the system.
-/

/-! ### Basic character utilities (Python `str` methods, restricted alphabet) -/

/-- Model of Python `str.lower` on one character, restricted to ASCII letters
plus the accented Spanish letters used by the sources. -/
def pyLowerChar (c : Char) : Char :=
  if 'A' ≤ c ∧ c ≤ 'Z' then Char.ofNat (c.toNat + 32)
  else if c = 'Á' then 'á' else if c = 'É' then 'é' else if c = 'Í' then 'í'
  else if c = 'Ó' then 'ó' else if c = 'Ú' then 'ú' else if c = 'Ü' then 'ü'
  else if c = 'Ñ' then 'ñ' else c

/-- Model of Python `str.upper` on one character, same restriction. -/
def pyUpperChar (c : Char) : Char :=
  if 'a' ≤ c ∧ c ≤ 'z' then Char.ofNat (c.toNat - 32)
  else if c = 'á' then 'Á' else if c = 'é' then 'É' else if c = 'í' then 'Í'
  else if c = 'ó' then 'Ó' else if c = 'ú' then 'Ú' else if c = 'ü' then 'Ü'
  else if c = 'ñ' then 'Ñ' else c

/-- Python `\s` (ASCII whitespace: space, tab, newline, CR, VT, FF). -/
def isPySpace (c : Char) : Bool :=
  c = ' ' || c = '\t' || c = '\n' || c = '\r' || c = '\x0b' || c = '\x0c'

/-- Python `\d` restricted to ASCII digits. -/
def isDigitC (c : Char) : Bool := '0' ≤ c && c ≤ '9'

/-- Drop the longest run of characters satisfying `p` from the front. -/
def dropLeading (p : Char → Bool) : List Char → List Char
  | [] => []
  | c :: rest => if p c then dropLeading p rest else c :: rest

/-- Model of Python `str.strip` with the character set `p`: remove matching
characters from both ends. -/
def pyStrip (p : Char → Bool) (s : List Char) : List Char :=
  (dropLeading p ((dropLeading p s).reverse)).reverse

/-- Python `str.strip()` with no arguments strips whitespace. -/
def pyStripWs (s : List Char) : List Char := pyStrip isPySpace s

/-- Case-sensitive literal match at the head of a string
(`litAt pat s` is true when `s` starts with `pat`). -/
def litAt : List Char → List Char → Bool
  | [], _ => true
  | _ :: _, [] => false
  | c :: cs, d :: ds => c = d && litAt cs ds

/-- Model of the Python substring test `pat in s` (for nonempty `pat`). -/
def containsSub (pat : List Char) : List Char → Bool
  | [] => litAt pat []
  | c :: rest => litAt pat (c :: rest) || containsSub pat rest

/-! ### Python dictionaries as insertion-ordered association lists -/

/-- Model of a Python `dict` with string keys and values: an association list
in key-insertion order, without duplicate keys. -/
abbrev Dict := List (String × String)

/-- Association-list lookup (Python `dict` key lookup). -/
def dlookup : Dict → String → Option String
  | [], _ => none
  | (k', v') :: rest, k => if k' = k then some v' else dlookup rest k

/-- Python `d.get(k, '')` (also used for `d.get(k)` in truthiness tests,
where the missing-key result `None` and `''` are both falsy). -/
def dget (d : Dict) (k : String) : String := (dlookup d k).getD ""

/-- Python `d[k] = v`: overwrite in place when the key exists (keeping its
position, as Python dicts do), otherwise append. -/
def dset : Dict → String → String → Dict
  | [], k, v => [(k, v)]
  | (k', v') :: rest, k, v =>
    if k' = k then (k', v) :: rest else (k', v') :: dset rest k v

/-- Python `d.setdefault(k, v)`: insert only when the key is absent. -/
def dsetdefault (d : Dict) (k : String) (v : String) : Dict :=
  if (dlookup d k).isSome then d else dset d k v

/-- Set the key when the optional extraction succeeded, as in the
`m = re.search(...)` / `if m: registro[k] = ...` blocks of the parsers. -/
def optSet (d : Dict) (k : String) (o : Option String) : Dict :=
  match o with
  | some v => dset d k v
  | none => d

/-! ### config.py -/

/-- Columns of the record, in spreadsheet order (`Config.ENCABEZADOS`). -/
def ENCABEZADOS : List String :=
  ["Tomo", "Libro", "Foja", "Acta", "Entidad", "Municipio",
   "CURP", "Registrado", "Padre", "Madre", "FechaNacimiento",
   "Sexo", "FechaRegistro", "Oficial", "Folio", "FechaEscaneo"]

/-- Maximum number of records held in memory
(`Config.MAX_REGISTROS_MEMORIA`). -/
def MAX_REGISTROS_MEMORIA : Nat := 10000

/-- Mapping from normalized QR keys to canonical column names
(`KeyMapping.MAPEO_CLAVES`); the same table is inlined in
`app.py::normalizar_clave`. -/
def MAPEO_CLAVES : List (String × String) :=
  [("padre1", "Padre"),
   ("padre2", "Madre"),
   ("registrado", "Registrado"),
   ("curp", "CURP"),
   ("tomo", "Tomo"),
   ("libro", "Libro"),
   ("foja", "Foja"),
   ("acta", "Acta"),
   ("entidad", "Entidad"),
   ("municipio", "Municipio"),
   ("fechanacimiento", "FechaNacimiento"),
   ("sexo", "Sexo"),
   ("fechaimpresion", "FechaRegistro"),
   ("impreso en", "Oficial"),
   ("cadena", "Folio")]

/-- The key-normalization preprocessing
`raw_key.lower().replace(' ', '').replace('í', 'i')`. -/
def normForm (k : String) : String :=
  String.mk (((k.data.map pyLowerChar).filter (fun c => c ≠ ' ')).map
    (fun c => if c = 'í' then 'i' else c))

/-- Embedding of `KeyMapping.normalizar_clave` (identical to
`app.py::normalizar_clave`): `MAPEO_CLAVES.get(normalized, raw_key)`. -/
def normalizar_clave (raw_key : String) : String :=
  (MAPEO_CLAVES.lookup (normForm raw_key)).getD raw_key

/-! ### Date conversion (`DataParser._convertir_fecha`, `app.py::convertir_fecha`) -/

/-- Model of Python `str.split(sep)` for a one-character separator: splits at
every occurrence, keeping empty parts. -/
def pySplit (sep : Char) : List Char → List (List Char)
  | [] => [[]]
  | c :: rest =>
    if c = sep then [] :: pySplit sep rest
    else
      match pySplit sep rest with
      | [] => [[c]]
      | h :: t => (c :: h) :: t

/-- Embedding of `convertir_fecha`: when the string contains a slash it is
split on `/`; `d, m, a = ...` succeeds only on exactly three parts (otherwise
Python raises and the `except` branch returns the input unchanged); a string
without a slash is returned unchanged. -/
def convertir_fecha (s : String) : String :=
  if '/' ∈ s.data then
    match pySplit '/' s.data with
    | [d, m, a] => String.mk (a ++ '-' :: m ++ '-' :: d)
    | _ => s
  else s

/-! ### models/registro.py -/

/-- Embedding of the `RegistroActa` dataclass: sixteen string fields.  The
`FechaEscaneo` default timestamp is supplied by the creator. -/
structure RegistroActa where
  Tomo : String := ""
  Libro : String := ""
  Foja : String := ""
  Acta : String := ""
  Entidad : String := ""
  Municipio : String := ""
  CURP : String := ""
  Registrado : String := ""
  Padre : String := ""
  Madre : String := ""
  FechaNacimiento : String := ""
  Sexo : String := ""
  FechaRegistro : String := ""
  Oficial : String := ""
  Folio : String := ""
  FechaEscaneo : String := ""
deriving DecidableEq

/-- Embedding of `RegistroActa.to_dict` (`dataclasses.asdict`, in field
declaration order). -/
def RegistroActa.to_dict (r : RegistroActa) : Dict :=
  [("Tomo", r.Tomo), ("Libro", r.Libro), ("Foja", r.Foja), ("Acta", r.Acta),
   ("Entidad", r.Entidad), ("Municipio", r.Municipio), ("CURP", r.CURP),
   ("Registrado", r.Registrado), ("Padre", r.Padre), ("Madre", r.Madre),
   ("FechaNacimiento", r.FechaNacimiento), ("Sexo", r.Sexo),
   ("FechaRegistro", r.FechaRegistro), ("Oficial", r.Oficial),
   ("Folio", r.Folio), ("FechaEscaneo", r.FechaEscaneo)]

/-- Embedding of `RegistroActa.get_clave_unica` (`self.Folio or self.CURP`,
with Python falsiness of the empty string). -/
def RegistroActa.get_clave_unica (r : RegistroActa) : String :=
  if r.Folio ≠ "" then r.Folio else r.CURP

/-- The duplicate test of `RegistroManager.agregar` against one stored
record: `(registro.Folio and r.Folio == registro.Folio) or
(registro.CURP and r.CURP == registro.CURP)`. -/
def esDuplicado (nuevo : RegistroActa) (x : RegistroActa) : Bool :=
  (nuevo.Folio != "") && (x.Folio == nuevo.Folio)
    || (nuevo.CURP != "") && (x.CURP == nuevo.CURP)

/-- Embedding of `RegistroManager.agregar`.  The store state (the list
`self._registros`) is threaded explicitly; the result is
`(éxito, mensaje, nuevo estado)`.  The body runs inside one lock acquisition
in the source; here it is a single pure transition. -/
def agregar (st : List RegistroActa) (registro : RegistroActa) :
    Bool × String × List RegistroActa :=
  if registro.get_clave_unica = "" then
    (false, "Error: No se encontró Folio ni CURP en el registro", st)
  else if MAX_REGISTROS_MEMORIA ≤ st.length then
    (false, "Límite de memoria alcanzado (" ++ toString MAX_REGISTROS_MEMORIA
      ++ " registros)", st)
  else if st.any (esDuplicado registro) then
    (false, "Acta DUPLICADA. Ya existe " ++
      (if registro.Folio ≠ "" then "Folio: " ++ registro.Folio
       else "CURP: " ++ registro.CURP), st)
  else
    (true, "Acta registrada (" ++
      (if registro.Folio ≠ "" then "Folio" else "CURP") ++ ": " ++
      registro.get_clave_unica ++ ") exitosamente", st ++ [registro])

/-- The store after a sequence of `agregar` calls starting from the empty
store. -/
def runInserts (rs : List RegistroActa) : List RegistroActa :=
  rs.foldl (fun st r => (agregar st r).2.2) []

/-- Embedding of `RegistroManager.contar`. -/
def contar (st : List RegistroActa) : Nat := st.length

/-- Embedding of `RegistroManager.limpiar` (returns the success message and
the emptied store). -/
def limpiar (st : List RegistroActa) : Bool × String × List RegistroActa :=
  (true, "Se limpiaron " ++ toString st.length ++ " registros de la memoria", [])

/-- Embedding of `RegistroManager.crear_desde_dict`:
`{h: datos.get(h, '') for h in Config.ENCABEZADOS}` fed to the dataclass
constructor. -/
def crear_desde_dict (datos : Dict) : RegistroActa :=
  { Tomo := dget datos "Tomo", Libro := dget datos "Libro",
    Foja := dget datos "Foja", Acta := dget datos "Acta",
    Entidad := dget datos "Entidad", Municipio := dget datos "Municipio",
    CURP := dget datos "CURP", Registrado := dget datos "Registrado",
    Padre := dget datos "Padre", Madre := dget datos "Madre",
    FechaNacimiento := dget datos "FechaNacimiento", Sexo := dget datos "Sexo",
    FechaRegistro := dget datos "FechaRegistro", Oficial := dget datos "Oficial",
    Folio := dget datos "Folio", FechaEscaneo := dget datos "FechaEscaneo" }

/-- Sort key used by both snapshot functions:
`lambda r: r.get('FechaEscaneo', '')`. -/
def fechaKey (d : Dict) : String := dget d "FechaEscaneo"

/-- Embedding of `RegistroManager.obtener_todos`: convert each stored record
to a dict, then (when `ordenar_por_fecha`, the default) sort by `FechaEscaneo`
descending.  Python `sorted(..., reverse=True)` is a stable sort with respect
to the key; `List.insertionSort` with the reversed comparison is the same
stable sort. -/
def obtener_todos (st : List RegistroActa) (ordenar_por_fecha : Bool := true) :
    List Dict :=
  let registros := st.map RegistroActa.to_dict
  if ordenar_por_fecha then
    List.insertionSort (fun a b => fechaKey b ≤ fechaKey a) registros
  else registros

/-! ### app.py store variant (module-level `REGISTROS` and `guardar_registro`) -/

/-- The duplicate test of `app.py::guardar_registro` against one stored row
(records are dicts there). -/
def esDuplicadoApp (registro : Dict) (r : Dict) : Bool :=
  (dget registro "Folio" != "") && (dget r "Folio" == dget registro "Folio")
    || (dget registro "CURP" != "") && (dget r "CURP" == dget registro "CURP")

/-- The row appended by `app.py::guardar_registro`:
`{h: registro.get(h, '') for h in ENCABEZADOS}`. -/
def filaDe (registro : Dict) : Dict :=
  ENCABEZADOS.map (fun h => (h, dget registro h))

/-- The key of `app.py::_clave_registro`:
`registro.get('Folio') or registro.get('CURP')`. -/
def claveRegistro (registro : Dict) : String :=
  if dget registro "Folio" ≠ "" then dget registro "Folio"
  else dget registro "CURP"

/-- Embedding of `app.py::guardar_registro`.  Note: unlike
`RegistroManager.agregar`, this variant performs no capacity check. -/
def guardar_registro (st : List Dict) (registro : Dict) :
    Bool × String × List Dict :=
  if claveRegistro registro = "" then
    (false, "Error: No se encontró Folio ni CURP en el código QR.", st)
  else if st.any (esDuplicadoApp registro) then
    (false, "Acta DUPLICADA. Ya existe " ++
      (if dget registro "Folio" ≠ "" then "Folio: " ++ dget registro "Folio"
       else "CURP: " ++ dget registro "CURP") ++ ".", st)
  else
    (true, "Acta registrada (" ++
      (if dget registro "Folio" ≠ "" then "Folio" else "CURP") ++ ": " ++
      claveRegistro registro ++ ") exitosamente", st ++ [filaDe registro])

/-- The `app.py` store after a sequence of `guardar_registro` calls starting
from the empty `REGISTROS` list. -/
def runInsertsApp (rs : List Dict) : List Dict :=
  rs.foldl (fun st r => (guardar_registro st r).2.2) []

/-- A nonempty `Folio` string that is distinct for every index (used to feed
the store with arbitrarily many valid unique records). -/
def folioStr (i : Nat) : String := String.mk (List.replicate (i + 1) 'x')

/-- A minimal input dict holding only a fresh `Folio`. -/
def mkRegApp (i : Nat) : Dict := [("Folio", folioStr i)]

/-- The `app.py` store after inserting `n` distinct valid records. -/
def insertManyApp (n : Nat) : List Dict :=
  runInsertsApp ((List.range n).map mkRegApp)

/-! ### Reference (aliasing) model for the snapshot functions

Python lists hold references to objects.  To state the aliasing claim about
the snapshots we model a heap of dict cells addressed by `Nat`; a store is a
list of addresses.  `RegistroActa.to_dict` / `r.to_dict()` allocates a fresh
cell; `sorted(...)` builds a new list of the *same* addresses. -/

structure Heap where
  cells : List Dict
deriving DecidableEq

/-- Read the record stored at address `a`. -/
def Heap.read (h : Heap) (a : Nat) : Dict := h.cells.getD a []

/-- Mutate the record stored at address `a` (a caller writing into a dict it
got from a snapshot). -/
def Heap.write (h : Heap) (a : Nat) (d : Dict) : Heap := ⟨h.cells.set a d⟩

/-- Allocate a fresh cell holding `d`, returning its address. -/
def Heap.alloc (h : Heap) (d : Dict) : Nat × Heap :=
  (h.cells.length, ⟨h.cells ++ [d]⟩)

/-- The list comprehension `[r.to_dict() for r in self._registros]` of
`RegistroManager.obtener_todos`: each stored record is copied into a fresh
cell. -/
def allocCopies (h : Heap) : List Nat → List Nat × Heap
  | [] => ([], h)
  | a :: rest =>
    let na := (h.alloc (h.read a)).1
    let h2 := (h.alloc (h.read a)).2
    let res := allocCopies h2 rest
    (na :: res.1, res.2)

/-- Reference-level embedding of `RegistroManager.obtener_todos` (default
arguments): fresh copies of all stored records, sorted by `FechaEscaneo`
descending. -/
def obtener_todos_heap (store : List Nat) (h : Heap) : List Nat × Heap :=
  let res := allocCopies h store
  (List.insertionSort (fun x y => fechaKey (res.2.read y) ≤ fechaKey (res.2.read x))
    res.1, res.2)

/-- Reference-level embedding of `app.py::obtener_registros`:
`sorted(REGISTROS, key=..., reverse=True)` builds a new list whose elements
are the stored dict objects themselves (the heap is unchanged and no cell is
copied). -/
def obtener_registros_heap (store : List Nat) (h : Heap) : List Nat :=
  List.insertionSort (fun x y => fechaKey (h.read y) ≤ fechaKey (h.read x)) store

/-! ### Text-pattern engine (`re.search` for the fixed patterns of
`RegexPatterns` / `app.py::parsear_texto_acta`)

Each pattern of the sources is a sequence of: a literal, `\s*`, a greedy
one-or-more character-class capture, an exact-width character-class capture,
or the date shape `\d{2}/\d{2}/\d{4}`.  The matcher tries candidate
consumptions in Python's backtracking order (greedy: longest first) and the
search tries start positions left to right. -/

inductive PatItem where
  | lit (cs : List Char)
  | ws
  | capPlus (cls : Char → Bool)
  | capExact (cls : Char → Bool) (n : Nat)
  | capDate

/-- Length of the maximal run of class characters at the head. -/
def clsRun (cls : Char → Bool) : List Char → Nat
  | [] => 0
  | c :: rest => if cls c then clsRun cls rest + 1 else 0

/-- Candidate whitespace consumptions for greedy `\s*`: `n, n-1, ..., 0`. -/
def descRange : Nat → List Nat
  | 0 => [0]
  | n + 1 => (n + 1) :: descRange n

/-- Candidate consumptions for a greedy one-or-more capture: `n, ..., 1`. -/
def descPos : Nat → List Nat
  | 0 => []
  | n + 1 => (n + 1) :: descPos n

/-- The shape `\d{2}/\d{2}/\d{4}` at the head of the string. -/
def dateShape : List Char → Bool
  | d1 :: d2 :: s1 :: m1 :: m2 :: s2 :: a1 :: a2 :: a3 :: a4 :: _ =>
    isDigitC d1 && isDigitC d2 && (s1 == '/') && isDigitC m1 && isDigitC m2 &&
      (s2 == '/') && isDigitC a1 && isDigitC a2 && isDigitC a3 && isDigitC a4
  | _ => false

/-- Candidate (capture, remainder) pairs for one pattern item, in Python's
backtracking preference order. -/
def itemCands : PatItem → List Char → List (Option String × List Char)
  | .lit cs, s => if litAt cs s then [(none, s.drop cs.length)] else []
  | .ws, s => (descRange (clsRun isPySpace s)).map (fun k => (none, s.drop k))
  | .capPlus cls, s =>
    (descPos (clsRun cls s)).map
      (fun len => (some (String.mk (s.take len)), s.drop len))
  | .capExact cls n, s =>
    if n ≤ clsRun cls s then [(some (String.mk (s.take n)), s.drop n)] else []
  | .capDate, s =>
    if dateShape s then [(some (String.mk (s.take 10)), s.drop 10)] else []

/-- Match a whole item sequence at the current position, returning the list
of captured groups of the first (in backtracking order) full match. -/
def matchItems : List PatItem → List Char → Option (List String)
  | [], _ => some []
  | it :: rest, s =>
    (itemCands it s).findSome? fun cand =>
      (matchItems rest cand.2).map fun gs =>
        match cand.1 with
        | some g => g :: gs
        | none => gs

/-- Model of `re.search`: try every start position left to right. -/
def reSearch (items : List PatItem) : List Char → Option (List String)
  | [] => matchItems items []
  | c :: rest =>
    match matchItems items (c :: rest) with
    | some gs => some gs
    | none => reSearch items rest

/-- Character class `[A-Z0-9]`. -/
def isUpperAlnum (c : Char) : Bool := ('A' ≤ c && c ≤ 'Z') || isDigitC c

/-- Character class `[A-ZÁÉÍÓÚÜÑ\s]` of the Entidad/Municipio patterns. -/
def isEntidadChar (c : Char) : Bool :=
  ('A' ≤ c && c ≤ 'Z') || c = 'Á' || c = 'É' || c = 'Í' || c = 'Ó' ||
    c = 'Ú' || c = 'Ü' || c = 'Ñ' || isPySpace c

/-- Character class `[^\n]` of the line captures. -/
def notNewline (c : Char) : Bool := c ≠ '\n'

/-- First captured group of a search result. -/
def firstGroup (o : Option (List String)) : Option String := o.bind List.head?

/-- Pattern `Clave Única de Registro de Población\s*([A-Z0-9]{18})`. -/
def searchCURP (t : List Char) : Option String :=
  firstGroup (reSearch
    [.lit "Clave Única de Registro de Población".data, .ws,
     .capExact isUpperAlnum 18] t)

/-- Pattern `Identificador Electrónico\s*(\d+)`. -/
def searchFolio (t : List Char) : Option String :=
  firstGroup (reSearch
    [.lit "Identificador Electrónico".data, .ws, .capPlus isDigitC] t)

/-- Pattern `Entidad de Registro\s*([A-ZÁÉÍÓÚÜÑ\s]+)`. -/
def searchEntidad (t : List Char) : Option String :=
  firstGroup (reSearch
    [.lit "Entidad de Registro".data, .ws, .capPlus isEntidadChar] t)

/-- Pattern `Municipio de Registro\s*([A-ZÁÉÍÓÚÜÑ\s]+)`. -/
def searchMunicipio (t : List Char) : Option String :=
  firstGroup (reSearch
    [.lit "Municipio de Registro".data, .ws, .capPlus isEntidadChar] t)

/-- Pattern `Oficialía\s*(\d+)`. -/
def searchOficial (t : List Char) : Option String :=
  firstGroup (reSearch [.lit "Oficialía".data, .ws, .capPlus isDigitC] t)

/-- Pattern `Fecha de Registro\s*(\d{2}/\d{2}/\d{4})`. -/
def searchFechaRegistro (t : List Char) : Option String :=
  firstGroup (reSearch [.lit "Fecha de Registro".data, .ws, .capDate] t)

/-- Pattern `Libro\s*(\d+)`. -/
def searchLibro (t : List Char) : Option String :=
  firstGroup (reSearch [.lit "Libro".data, .ws, .capPlus isDigitC] t)

/-- Pattern `Número de Acta\s*(\d+)`. -/
def searchActa (t : List Char) : Option String :=
  firstGroup (reSearch [.lit "Número de Acta".data, .ws, .capPlus isDigitC] t)

/-- Pattern `Nombre\(s\):\s*([^\n]+)\s*Primer Apellido:\s*([^\n]+)\s*Segundo
Apellido:\s*([^\n]+)` (the `re.DOTALL` flag is irrelevant: the pattern has no
dot). -/
def searchRegistrado (t : List Char) : Option (List String) :=
  reSearch
    [.lit "Nombre(s):".data, .ws, .capPlus notNewline,
     .ws, .lit "Primer Apellido:".data, .ws, .capPlus notNewline,
     .ws, .lit "Segundo Apellido:".data, .ws, .capPlus notNewline] t

/-- Pattern `Sexo:\s*([^\n]+)`. -/
def searchSexo (t : List Char) : Option String :=
  firstGroup (reSearch [.lit "Sexo:".data, .ws, .capPlus notNewline] t)

/-- Pattern `Fecha de Nacimiento:\s*(\d{2}/\d{2}/\d{4})`. -/
def searchFechaNacimiento (t : List Char) : Option String :=
  firstGroup (reSearch [.lit "Fecha de Nacimiento:".data, .ws, .capDate] t)

/-- Python `.strip()` on a captured group, as a `String` function. -/
def stripS (v : String) : String := String.mk (pyStripWs v.data)

/-- The Sexo post-processing:
`'H' if 'HOMB' in sexo else 'M' if 'MUJ' in sexo else sexo` applied to the
stripped, upper-cased capture. -/
def sexoMap (v : String) : String :=
  let sexo := String.mk ((pyStripWs v.data).map pyUpperChar)
  if containsSub "HOMB".data sexo.data then "H"
  else if containsSub "MUJ".data sexo.data then "M"
  else sexo

/-- The Registrado post-processing: the three stripped name groups joined
with single spaces. -/
def joinRegistrado (gs : List String) : Option String :=
  match gs with
  | [g1, g2, g3] =>
    some (stripS g1 ++ " " ++ stripS g2 ++ " " ++ stripS g3)
  | _ => none

/-- The common field-extraction body shared verbatim by
`DataParser.parsear_texto_acta` and `app.py::parsear_texto_acta`: one
independent search per field, then the default empty fields and the scan
timestamp. -/
def parseFields (texto : List Char) (now : String) : Dict :=
  let d := optSet [] "CURP" (searchCURP texto)
  let d := optSet d "Folio" (searchFolio texto)
  let d := optSet d "Entidad" ((searchEntidad texto).map stripS)
  let d := optSet d "Municipio" ((searchMunicipio texto).map stripS)
  let d := optSet d "Oficial" (searchOficial texto)
  let d := optSet d "FechaRegistro" ((searchFechaRegistro texto).map convertir_fecha)
  let d := optSet d "Libro" (searchLibro texto)
  let d := optSet d "Acta" (searchActa texto)
  let d := optSet d "Registrado" ((searchRegistrado texto).bind joinRegistrado)
  let d := optSet d "Sexo" ((searchSexo texto).map sexoMap)
  let d := optSet d "FechaNacimiento" ((searchFechaNacimiento texto).map convertir_fecha)
  let d := dsetdefault d "Padre" ""
  let d := dsetdefault d "Madre" ""
  let d := dsetdefault d "Tomo" ""
  let d := dsetdefault d "Foja" ""
  dset d "FechaEscaneo" now

/-- Embedding of `DataParser.parsear_texto_acta`: the extraction body, then
the minimal-identity gate
`if not registro.get('CURP') and not registro.get('Folio'): return None`. -/
def parsear_texto_acta (texto : List Char) (now : String) : Option Dict :=
  if dget (parseFields texto now) "CURP" = "" ∧
      dget (parseFields texto now) "Folio" = "" then none
  else some (parseFields texto now)

/-- Embedding of `app.py::parsear_texto_acta`: the same extraction body with
no minimal-identity gate — the dict is returned unconditionally. -/
def parsear_texto_acta_app (texto : List Char) (now : String) : Dict :=
  parseFields texto now

/-- The text stage of `app.py::procesar_pdf_con_fallback`:
`registro = extraer_datos_desde_texto_pdf(...)`; `if registro:` — the result
counts as found exactly when it is a nonempty dict. -/
def textoFallback (texto : List Char) (now : String) : Option Dict :=
  if parsear_texto_acta_app texto now = [] then none
  else some (parsear_texto_acta_app texto now)

/-! ### QR payload parsing (`DataParser.parsear_qr`, identical in `app.py`)

The two `re.sub` repairs `([^,])CURP -> \1,CURP` and `([^,])Padre ->
\1,Padre` (case-insensitive) and the `findall` of
`(\b[\w\s]+?):(.+?)(?=\s*[\w\s]+:|$)` (case-insensitive) are embedded
directly.  For the key of a match, the only candidate length is the maximal
`[\w\s]` run (a colon is not a word or space character, so the lazy
quantifier has exactly one viable stop); for the value, the lazy `.+?` stops
at the first position where the lookahead holds. -/

/-- Python `\w` (ASCII word characters plus the accented Spanish letters). -/
def isWordChar (c : Char) : Bool :=
  ('a' ≤ c && c ≤ 'z') || ('A' ≤ c && c ≤ 'Z') || isDigitC c || c = '_' ||
    c = 'á' || c = 'é' || c = 'í' || c = 'ó' || c = 'ú' || c = 'ü' || c = 'ñ' ||
    c = 'Á' || c = 'É' || c = 'Í' || c = 'Ó' || c = 'Ú' || c = 'Ü' || c = 'Ñ'

/-- Character class `[\w\s]`. -/
def wordSpace (c : Char) : Bool := isWordChar c || isPySpace c

/-- Case-insensitive character comparison (`re.IGNORECASE`). -/
def ciEqChar (a b : Char) : Bool := pyLowerChar a = pyLowerChar b

/-- Case-insensitive literal match at the head of a string. -/
def ciStarts : List Char → List Char → Bool
  | [], _ => true
  | _ :: _, [] => false
  | c :: cs, d :: ds => ciEqChar c d && ciStarts cs ds

/-- Fueled scan of `re.sub(r'([^,])LABEL', r'\1,REPL', data, flags=I)`:
left-to-right, non-overlapping; on a match the preceding character is kept,
a comma is inserted and the matched label is replaced by the literal
replacement text.  The fuel only bounds recursion; `fuel ≥ length` is always
sufficient. -/
def repairGo (label repl : List Char) : Nat → List Char → List Char
  | _, [] => []
  | 0, s => s
  | fuel + 1, c :: rest =>
    if c ≠ ',' ∧ ciStarts label rest then
      c :: ',' :: (repl ++ repairGo label repl fuel (rest.drop label.length))
    else c :: repairGo label repl fuel rest

/-- One `re.sub(r'([^,])LABEL', r'\1,REPL', data, flags=I)` pass. -/
def repairLabel (label repl : List Char) (s : List Char) : List Char :=
  repairGo label repl s.length s

/-- The lookahead `(?=\s*[\w\s]+:|$)`.  Because `\s ⊆ [\w\s]` and `:` is in
neither class, the first branch holds exactly when the maximal `[\w\s]` run
is nonempty and is followed by a colon; `$` matches at the end of the string
or before a terminal newline. -/
def qrLookahead (s : List Char) : Bool :=
  (match s.drop (clsRun wordSpace s) with
   | ':' :: _ => 0 < clsRun wordSpace s
   | _ => false) ||
  (match s with
   | [] => true
   | ['\n'] => true
   | _ => false)

/-- Length taken by the lazy value `(.+?)` (no DOTALL: newline excluded):
the least `v ≥ 1` such that the lookahead holds after `v` characters. -/
def valLen : List Char → Option Nat
  | [] => none
  | c :: rest =>
    if c = '\n' then none
    else if qrLookahead rest then some 1
    else (valLen rest).map (· + 1)

/-- Try the key-value pattern at the current position: `\b`, then the lazy
`[\w\s]+?` key up to a colon, then the lazy value.  Returns the two captures
and the number of characters consumed. -/
def qrMatchAt (prev : Option Char) (s : List Char) : Option (String × String × Nat) :=
  let prevW := match prev with
    | some c => isWordChar c
    | none => false
  let curW := match s with
    | c :: _ => isWordChar c
    | [] => false
  if prevW = curW then none
  else
    let l := clsRun wordSpace s
    match s.drop l with
    | ':' :: afterColon =>
      if 0 < l then
        match valLen afterColon with
        | some v =>
          some (String.mk (s.take l), String.mk (afterColon.take v), l + 1 + v)
        | none => none
      else none
    | _ => none

/-- Fueled model of `patron.findall(data)`: scan positions left to right,
resuming after the end of each match.  `fuel ≥ length + 1` is always
sufficient. -/
def qrScan : Nat → Option Char → List Char → List (String × String)
  | 0, _, _ => []
  | _ + 1, _, [] => []
  | fuel + 1, prev, c :: rest =>
    match qrMatchAt prev (c :: rest) with
    | some (k, v, consumed) =>
      (k, v) :: qrScan fuel (((c :: rest).take consumed).getLast?)
        ((c :: rest).drop consumed)
    | none => qrScan fuel (some c) rest

/-- All key-value matches of the tokenization pattern. -/
def qrFindAll (s : List Char) : List (String × String) :=
  qrScan (s.length + 1) none s

/-- Python `v.strip(' ,;')` character set. -/
def stripQrVal (c : Char) : Bool := c = ' ' || c = ',' || c = ';'

/-- Embedding of `parsear_qr`: the two comma repairs, the tokenization, key
normalization with whitespace-stripped keys, value cleanup, and the scan
timestamp. -/
def parsear_qr (data : List Char) (now : String) : Dict :=
  let d1 := repairLabel "CURP".data "CURP".data data
  let d2 := repairLabel "Padre".data "Padre".data d1
  let registro := (qrFindAll d2).foldl
    (fun d kv =>
      dset d (normalizar_clave (String.mk (pyStripWs kv.1.data)))
        (String.mk (pyStrip stripQrVal kv.2.data))) []
  dset registro "FechaEscaneo" now

/-! ## Helper lemmas -/

theorem dget_nil (k : String) : dget [] k = "" := rfl

theorem dget_dset_self (d : Dict) (k v : String) : dget (dset d k v) k = v := by
  induction d with
  | nil => simp [dget, dset, dlookup]
  | cons hd tl ih =>
    by_cases h : hd.1 = k
    · simp [dset, h, dget, dlookup]
    · simpa [dset, h, dget, dlookup] using ih

theorem dget_dset_ne {k k' : String} (h : k' ≠ k) (d : Dict) (v : String) :
    dget (dset d k v) k' = dget d k' := by
  induction d with
  | nil => simp [dget, dset, dlookup, Ne.symm h]
  | cons hd tl ih =>
    by_cases h2 : hd.1 = k <;> by_cases h3 : hd.1 = k' <;>
      simp_all [dset, dget, dlookup]

theorem dget_optSet_self (d : Dict) (k : String) (o : Option String) :
    dget (optSet d k o) k = o.getD (dget d k) := by
  cases o with
  | none => rfl
  | some v => simp [optSet, dget_dset_self]

theorem dget_optSet_ne {k k' : String} (h : k' ≠ k) (d : Dict) (o : Option String) :
    dget (optSet d k o) k' = dget d k' := by
  cases o with
  | none => rfl
  | some v => simp [optSet, dget_dset_ne h]

theorem dget_dsetdefault_ne {k k' : String} (h : k' ≠ k) (d : Dict) (v : String) :
    dget (dsetdefault d k v) k' = dget d k' := by
  unfold dsetdefault
  split
  · rfl
  · exact dget_dset_ne h d v

/-! ## C5 — KeyNormalizer contract -/

/-- C5 counterexample: the claim says the raw key `"impreso en"` maps to
`"Oficial"`, but `normalizar_clave` strips spaces before the table lookup, so
the normalized form `"impresoen"` misses the table entry `"impreso en"` and
the raw key is returned unchanged. -/
theorem C5_counterexample :
    normalizar_clave "impreso en" = "impreso en" ∧
      normalizar_clave "impreso en" ≠ "Oficial" := by
  decide

/-- C5 (amended): `normalizar_clave` lower-cases, removes spaces and maps
`í` to `i`, then looks the result up in `MAPEO_CLAVES`; `"padre1" → "Padre"`,
`"padre2" → "Madre"`, `"cadena" → "Folio"`, `"fechaimpresion" →
"FechaRegistro"`, `"curp" → "CURP"`; the raw key `"impreso en"` is returned
unchanged (its table entry is unreachable because normalized keys contain no
spaces); every key whose normalized form is not in the table is returned
unchanged with its original casing; and every canonical column name is a
fixed point. -/
theorem C5_keyNormalizer :
    (normalizar_clave "padre1" = "Padre" ∧ normalizar_clave "padre2" = "Madre" ∧
      normalizar_clave "cadena" = "Folio" ∧
      normalizar_clave "fechaimpresion" = "FechaRegistro" ∧
      normalizar_clave "curp" = "CURP" ∧
      normalizar_clave "impreso en" = "impreso en") ∧
    (∀ k : String, MAPEO_CLAVES.lookup (normForm k) = none →
      normalizar_clave k = k) ∧
    (∀ h ∈ ENCABEZADOS, normalizar_clave h = h) := by
  refine ⟨by decide, ?_, by decide⟩
  intro k hk
  simp [normalizar_clave, hk]

/-- C5 witness: the passthrough and fixed-point parts of `C5_keyNormalizer`
applied at concrete keys. -/
theorem C5_keyNormalizer_witness :
    normalizar_clave "clave rara" = "clave rara" ∧
      normalizar_clave "FechaRegistro" = "FechaRegistro" :=
  ⟨C5_keyNormalizer.2.1 "clave rara" (by decide),
   C5_keyNormalizer.2.2 "FechaRegistro" (by decide)⟩

/-! ## C8 — date reformatting -/

theorem pySplit_no_sep {sep : Char} : ∀ {l : List Char}, sep ∉ l →
    pySplit sep l = [l] := by
  intro l
  induction l with
  | nil => intro _; rfl
  | cons c rest ih =>
    intro h
    have hc : ¬c = sep := fun hc => h (hc ▸ List.mem_cons_self c rest)
    have hrest : sep ∉ rest := fun hr => h (List.mem_cons_of_mem c hr)
    simp [pySplit, hc, ih hrest]

theorem pySplit_append {sep : Char} : ∀ {l1 : List Char} (l2 : List Char),
    sep ∉ l1 → pySplit sep (l1 ++ sep :: l2) = l1 :: pySplit sep l2 := by
  intro l1
  induction l1 with
  | nil => intro l2 _; simp [pySplit]
  | cons c rest ih =>
    intro l2 h
    have hc : ¬c = sep := fun hc => h (hc ▸ List.mem_cons_self c rest)
    have hrest : sep ∉ rest := fun hr => h (List.mem_cons_of_mem c hr)
    rw [List.cons_append, pySplit, if_neg hc, ih l2 hrest]

/-- C8: `convertir_fecha` turns `DD/MM/YYYY` into `YYYY-MM-DD` by literal
slash-split and reassembly (for arbitrary slash-free parts), maps
`"05/03/2020"` to `"2020-03-05"`, and returns any string without a slash
unchanged (in particular `"not-a-date"`). -/
theorem C8_convertir_fecha :
    (∀ d m a : List Char, '/' ∉ d → '/' ∉ m → '/' ∉ a →
      convertir_fecha (String.mk (d ++ ('/' :: (m ++ ('/' :: a))))) =
        String.mk (a ++ ('-' :: (m ++ ('-' :: d))))) ∧
    convertir_fecha "05/03/2020" = "2020-03-05" ∧
    (∀ s : String, '/' ∉ s.data → convertir_fecha s = s) ∧
    convertir_fecha "not-a-date" = "not-a-date" := by
  refine ⟨?_, by decide, ?_, by decide⟩
  · intro d m a hd hm ha
    have hsplit : pySplit '/' (d ++ ('/' :: (m ++ ('/' :: a)))) = [d, m, a] := by
      rw [pySplit_append _ hd, pySplit_append _ hm, pySplit_no_sep ha]
    have hmem : '/' ∈ (String.mk (d ++ ('/' :: (m ++ ('/' :: a))))).data := by
      simp
    simp only [convertir_fecha, if_pos hmem]
    rw [hsplit]
    simp [List.append_assoc]
  · intro s hs
    simp [convertir_fecha, hs]

/-- C8 witness: `C8_convertir_fecha` applied at `"31/12/1999"` and at a
slash-free string. -/
theorem C8_convertir_fecha_witness :
    convertir_fecha (String.mk
        (['3', '1'] ++ ('/' :: (['1', '2'] ++ ('/' :: ['1', '9', '9', '9']))))) =
      String.mk
        (['1', '9', '9', '9'] ++ ('-' :: (['1', '2'] ++ ('-' :: ['3', '1'])))) ∧
    convertir_fecha "sin fecha" = "sin fecha" :=
  ⟨C8_convertir_fecha.1 ['3', '1'] ['1', '2'] ['1', '9', '9', '9']
      (by decide) (by decide) (by decide),
   C8_convertir_fecha.2.2.1 "sin fecha" (by decide)⟩

/-! ## C1 — deduplication invariant of `RegistroManager.agregar` -/

/-- Two records do not collide on either dedup axis: they share no non-empty
`Folio` and no non-empty `CURP`. -/
def noDupAxes (a b : RegistroActa) : Prop :=
  ¬(a.Folio = b.Folio ∧ a.Folio ≠ "") ∧ ¬(a.CURP = b.CURP ∧ a.CURP ≠ "")

theorem agregar_state (st : List RegistroActa) (r : RegistroActa) :
    (agregar st r).2.2 = st ∨
      ((agregar st r).2.2 = st ++ [r] ∧ st.any (esDuplicado r) = false) := by
  unfold agregar
  split_ifs <;> simp_all

theorem esDuplicado_false_iff (r x : RegistroActa) :
    esDuplicado r x = false ↔
      ¬(r.Folio ≠ "" ∧ x.Folio = r.Folio) ∧ ¬(r.CURP ≠ "" ∧ x.CURP = r.CURP) := by
  simp [esDuplicado, not_and, and_comm]
  tauto

theorem pairwise_agregar {st : List RegistroActa} {r : RegistroActa}
    (h : st.Pairwise noDupAxes) : ((agregar st r).2.2).Pairwise noDupAxes := by
  rcases agregar_state st r with heq | ⟨heq, hany⟩
  · rw [heq]; exact h
  · rw [heq, List.pairwise_append]
    refine ⟨h, by simp, ?_⟩
    intro x hx y hy
    rw [List.mem_singleton] at hy
    rw [hy]
    have hfalse : esDuplicado r x = false := by
      rw [List.any_eq_false] at hany
      simpa using hany x hx
    rw [esDuplicado_false_iff] at hfalse
    refine ⟨fun ⟨hf, hne⟩ => hfalse.1 ⟨hf ▸ hne, hf⟩,
      fun ⟨hc, hne⟩ => hfalse.2 ⟨hc ▸ hne, hc⟩⟩

theorem runInserts_invariant (rs : List RegistroActa) :
    (runInserts rs).Pairwise noDupAxes := by
  suffices h : ∀ st : List RegistroActa, st.Pairwise noDupAxes →
      (rs.foldl (fun st r => (agregar st r).2.2) st).Pairwise noDupAxes by
    exact h [] (by simp)
  induction rs with
  | nil => intro st hst; exact hst
  | cons r rest ih => intro st hst; exact ih _ (pairwise_agregar hst)

/-- C1: starting from the empty store, any sequence of `agregar` calls leaves
a store in which no two records share a non-empty `Folio` and no two share a
non-empty `CURP`; and a candidate matching any stored record on either
non-empty axis is rejected with the store unchanged (with the duplicate
message whenever the store is below capacity, where the duplicate scan is
reached). -/
theorem C1_dedup_invariant :
    (∀ rs : List RegistroActa, (runInserts rs).Pairwise noDupAxes) ∧
    (∀ (st : List RegistroActa) (r x : RegistroActa), x ∈ st →
      ((r.Folio ≠ "" ∧ x.Folio = r.Folio) ∨ (r.CURP ≠ "" ∧ x.CURP = r.CURP)) →
      (agregar st r).1 = false ∧ (agregar st r).2.2 = st ∧
        (st.length < MAX_REGISTROS_MEMORIA →
          (agregar st r).2.1 = "Acta DUPLICADA. Ya existe " ++
            (if r.Folio ≠ "" then "Folio: " ++ r.Folio
             else "CURP: " ++ r.CURP))) := by
  refine ⟨runInserts_invariant, ?_⟩
  intro st r x hx hdup
  have hclave : r.get_clave_unica ≠ "" := by
    unfold RegistroActa.get_clave_unica
    rcases hdup with ⟨hf, _⟩ | ⟨hc, _⟩
    · simp [hf]
    · split <;> simp_all
  have hany : st.any (esDuplicado r) = true := by
    rw [List.any_eq_true]
    refine ⟨x, hx, ?_⟩
    simp only [esDuplicado]
    rcases hdup with ⟨hf, hfe⟩ | ⟨hc, hce⟩
    · simp [hf, hfe]
    · simp [hc, hce]
  unfold agregar
  rw [if_neg hclave]
  by_cases hcap : MAX_REGISTROS_MEMORIA ≤ st.length
  · rw [if_pos hcap]
    exact ⟨rfl, rfl, fun hlt => absurd hcap (by omega)⟩
  · rw [if_neg hcap, if_pos hany]
    exact ⟨rfl, rfl, fun _ => rfl⟩

/-- C1 witness: `C1_dedup_invariant` applied to a concrete store and a
concrete colliding candidate. -/
theorem C1_dedup_invariant_witness :
    (runInserts [{ Folio := "123" }, { Folio := "123", CURP := "X" }]).Pairwise
      noDupAxes ∧
    (agregar [{ Folio := "123" }] { Folio := "123", CURP := "X" }).1 = false ∧
    (agregar [{ Folio := "123" }] { Folio := "123", CURP := "X" }).2.2 =
      [{ Folio := "123" }] :=
  ⟨C1_dedup_invariant.1 [{ Folio := "123" }, { Folio := "123", CURP := "X" }],
   (C1_dedup_invariant.2 [{ Folio := "123" }] { Folio := "123", CURP := "X" }
      { Folio := "123" } (by decide) (Or.inl (by decide))).1,
   (C1_dedup_invariant.2 [{ Folio := "123" }] { Folio := "123", CURP := "X" }
      { Folio := "123" } (by decide) (Or.inl (by decide))).2.1⟩

/-! ## C2 — capacity invariant -/

theorem agregar_length {st : List RegistroActa} {r : RegistroActa}
    (h : st.length ≤ MAX_REGISTROS_MEMORIA) :
    (agregar st r).2.2.length ≤ MAX_REGISTROS_MEMORIA := by
  unfold agregar
  split_ifs with h1 h2 h3 <;> simp_all <;> omega

/-- C2 counterexample: the claim covers `app.py::guardar_registro` (cited at
lines 113-132), which performs no capacity check, so inserting
`MAX_REGISTROS_MEMORIA + 1` distinct valid records makes the `app.py` store
exceed the configured maximum. -/
theorem C2_counterexample :
    MAX_REGISTROS_MEMORIA < (insertManyApp (MAX_REGISTROS_MEMORIA + 1)).length := by
  have key : ∀ n : Nat, insertManyApp n = (List.range n).map (fun i => filaDe (mkRegApp i)) := by
    intro n
    induction n with
    | zero => rfl
    | succ n ih =>
      have hne : folioStr n ≠ "" := by
        intro h
        have := congrArg String.data h
        simp [folioStr] at this
      have hfolio : dget (mkRegApp n) "Folio" = folioStr n := rfl
      have hcurp : dget (mkRegApp n) "CURP" = "" := rfl
      have hany : ((List.range n).map (fun i => filaDe (mkRegApp i))).any
          (esDuplicadoApp (mkRegApp n)) = false := by
        rw [List.any_eq_false]
        intro fila hfila
        rw [List.mem_map] at hfila
        obtain ⟨i, hi, hfi⟩ := hfila
        rw [List.mem_range] at hi
        have hfolioFila : dget (filaDe (mkRegApp i)) "Folio" = folioStr i := rfl
        have hineq : folioStr i ≠ folioStr n := by
          intro h
          have := congrArg String.data h
          simp only [folioStr] at this
          have := congrArg List.length this
          simp [List.length_replicate] at this
          omega
        simp [← hfi, esDuplicadoApp, hfolioFila, hfolio, hcurp, hineq]
      unfold insertManyApp runInsertsApp at ih ⊢
      rw [List.range_succ, List.map_append, List.foldl_append, ih]
      simp only [List.map_cons, List.map_nil, List.foldl_cons, List.foldl_nil]
      unfold guardar_registro
      rw [if_neg (by simp [claveRegistro, hfolio, hne]), if_neg (by simp [hany])]
      simp
  rw [key]
  simp

theorem runInserts_le_max (rs : List RegistroActa) :
    (runInserts rs).length ≤ MAX_REGISTROS_MEMORIA := by
  suffices h : ∀ st : List RegistroActa, st.length ≤ MAX_REGISTROS_MEMORIA →
      (rs.foldl (fun st r => (agregar st r).2.2) st).length ≤
        MAX_REGISTROS_MEMORIA by
    exact h [] (by simp)
  induction rs with
  | nil => intro st hst; exact hst
  | cons r rest ih => intro st hst; exact ih _ (agregar_length hst)

/-- C2 (amended): for `RegistroManager.agregar` the capacity invariant holds
as claimed: any sequence of inserts from the empty store stays within
`MAX_REGISTROS_MEMORIA`, and an insert of a valid record into a full store is
rejected with the capacity message and leaves the store unchanged.  (The
`app.py` variant `guardar_registro` has no capacity check, see the
counterexample.) -/
theorem C2_capacity :
    (∀ rs : List RegistroActa,
      (runInserts rs).length ≤ MAX_REGISTROS_MEMORIA) ∧
    (∀ (st : List RegistroActa) (r : RegistroActa),
      st.length = MAX_REGISTROS_MEMORIA → (r.Folio ≠ "" ∨ r.CURP ≠ "") →
      agregar st r = (false, "Límite de memoria alcanzado (" ++
        toString MAX_REGISTROS_MEMORIA ++ " registros)", st)) := by
  refine ⟨runInserts_le_max, ?_⟩
  intro st r hlen hvalid
  have hclave : ¬r.get_clave_unica = "" := by
    unfold RegistroActa.get_clave_unica
    rcases hvalid with hf | hc
    · simp [hf]
    · split <;> simp_all
  unfold agregar
  rw [if_neg hclave, if_pos (le_of_eq hlen.symm)]

/-- C2 witness: `C2_capacity` applied to a store filled to capacity and to a
concrete insert sequence. -/
theorem C2_capacity_witness :
    (runInserts [{ Folio := "1" }]).length ≤ MAX_REGISTROS_MEMORIA ∧
    agregar (List.replicate 10000 ({ Folio := "a" } : RegistroActa))
        { Folio := "b" } =
      (false, "Límite de memoria alcanzado (" ++
        toString MAX_REGISTROS_MEMORIA ++ " registros)",
        List.replicate 10000 ({ Folio := "a" } : RegistroActa)) :=
  ⟨C2_capacity.1 [{ Folio := "1" }],
   C2_capacity.2 (List.replicate 10000 ({ Folio := "a" } : RegistroActa))
     { Folio := "b" } (by rw [List.length_replicate]; rfl) (Or.inl (by decide))⟩

/-! ## C6 — enumeration order -/

/-- C6: for every store state, the snapshot returned by `obtener_todos` is
sorted by `FechaEscaneo` in descending lexicographic order, while the
underlying stored list is only ever appended to (or left unchanged) by
`agregar`, so storage keeps insertion order and sorting happens at read
time. -/
theorem C6_orden :
    (∀ st : List RegistroActa,
      (obtener_todos st).Pairwise (fun a b => fechaKey b ≤ fechaKey a)) ∧
    (∀ (st : List RegistroActa) (r : RegistroActa),
      (agregar st r).2.2 = st ∨ (agregar st r).2.2 = st ++ [r]) := by
  constructor
  · intro st
    haveI : IsTotal Dict (fun a b => fechaKey b ≤ fechaKey a) :=
      ⟨fun a b => (le_total (fechaKey a) (fechaKey b)).symm⟩
    haveI : IsTrans Dict (fun a b => fechaKey b ≤ fechaKey a) :=
      ⟨fun _ _ _ hab hbc => le_trans hbc hab⟩
    simpa [obtener_todos] using
      List.sorted_insertionSort (fun a b : Dict => fechaKey b ≤ fechaKey a)
        (st.map RegistroActa.to_dict)
  · intro st r
    rcases agregar_state st r with h | ⟨h, _⟩
    · exact Or.inl h
    · exact Or.inr h

/-! ## C10 — implicit schema normalization at insert -/

/-- C10: whenever `guardar_registro` succeeds, the row actually appended is
`{h: registro.get(h, '') for h in ENCABEZADOS}` — its keys are exactly the
sixteen canonical columns in order (extraneous input keys are dropped,
missing canonical keys are filled with the empty string) — and consequently
every record stored by any insert sequence has exactly the canonical key
list. -/
theorem C10_schema :
    (∀ (st : List Dict) (registro : Dict),
      (guardar_registro st registro).1 = true →
      (guardar_registro st registro).2.2 = st ++ [filaDe registro]) ∧
    (∀ registro : Dict, (filaDe registro).map Prod.fst = ENCABEZADOS) ∧
    (∀ rs : List Dict, ∀ fila ∈ runInsertsApp rs,
      fila.map Prod.fst = ENCABEZADOS) := by
  have hkeys : ∀ registro : Dict, (filaDe registro).map Prod.fst = ENCABEZADOS :=
    fun _ => rfl
  have hstate : ∀ (st : List Dict) (registro : Dict),
      (guardar_registro st registro).2.2 = st ∨
        (guardar_registro st registro).2.2 = st ++ [filaDe registro] := by
    intro st registro
    unfold guardar_registro
    split_ifs <;> simp
  refine ⟨?_, hkeys, ?_⟩
  · intro st registro h
    unfold guardar_registro at h ⊢
    split_ifs at h ⊢ <;> simp_all
  · intro rs
    suffices h : ∀ st : List Dict,
        (∀ fila ∈ st, fila.map Prod.fst = ENCABEZADOS) →
        ∀ fila ∈ rs.foldl (fun st r => (guardar_registro st r).2.2) st,
          fila.map Prod.fst = ENCABEZADOS by
      exact h [] (by simp)
    induction rs with
    | nil => intro st hst; exact hst
    | cons r rest ih =>
      intro st hst
      simp only [List.foldl_cons]
      refine ih _ ?_
      rcases hstate st r with h | h <;> rw [h]
      · exact hst
      · intro fila hf
        rcases List.mem_append.mp hf with hf | hf
        · exact hst fila hf
        · rw [List.mem_singleton] at hf
          rw [hf]
          exact hkeys r

/-- C10 witness: `C10_schema` applied to the empty store and an input dict
carrying an extraneous key and a missing canonical key. -/
theorem C10_schema_witness :
    (guardar_registro [] [("Folio", "F1"), ("Basura", "z")]).2.2 =
      [filaDe [("Folio", "F1"), ("Basura", "z")]] :=
  C10_schema.1 [] [("Folio", "F1"), ("Basura", "z")] (by decide)

/-! ## C4 — snapshot aliasing -/

theorem allocCopies_len_mono (l : List Nat) : ∀ h : Heap,
    h.cells.length ≤ ((allocCopies h l).2).cells.length := by
  induction l with
  | nil => intro h; exact le_refl _
  | cons a rest ih =>
    intro h
    have step : h.cells.length ≤ (h.cells ++ [h.read a]).length := by
      simp
    exact le_trans step (ih ⟨h.cells ++ [h.read a]⟩)

theorem allocCopies_fresh {l : List Nat} : ∀ (h : Heap) (na : Nat),
    na ∈ (allocCopies h l).1 → h.cells.length ≤ na := by
  induction l with
  | nil => intro h na hna; simp [allocCopies] at hna
  | cons a rest ih =>
    intro h na hna
    simp only [allocCopies, Heap.alloc, List.mem_cons] at hna
    rcases hna with rfl | hna
    · exact le_refl _
    · have h2 := ih ⟨h.cells ++ [h.read a]⟩ na hna
      simp at h2
      omega

theorem allocCopies_read_preserved {l : List Nat} : ∀ (h : Heap) (b : Nat),
    b < h.cells.length → ((allocCopies h l).2).read b = h.read b := by
  induction l with
  | nil => intro h b _; rfl
  | cons a rest ih =>
    intro h b hb
    simp only [allocCopies, Heap.alloc]
    have h2 : ((⟨h.cells ++ [h.read a]⟩ : Heap)).read b = h.read b := by
      simp only [Heap.read]
      rw [List.getD_eq_getElem?_getD, List.getD_eq_getElem?_getD,
        List.getElem?_append_left hb]
      rw [← List.getD_eq_getElem?_getD]
    rw [ih ⟨h.cells ++ [h.read a]⟩ b (by simp; omega), h2]

theorem heap_read_write_ne {h : Heap} {a b : Nat} (hne : a ≠ b) (d : Dict) :
    (h.write a d).read b = h.read b := by
  simp only [Heap.write, Heap.read]
  rw [List.getD_eq_getElem?_getD, List.getD_eq_getElem?_getD,
    List.getElem?_set_ne hne]

/-- C4 counterexample: the claim covers `app.py::obtener_registros` (cited at
lines 135-142), whose snapshot is `sorted(REGISTROS, ...)` — a new list
holding the *same* record objects.  With one stored record at address `0`,
the snapshot returns address `0` itself, and writing through the snapshot
changes the stored record. -/
theorem C4_counterexample :
    obtener_registros_heap [0] ⟨[[("Folio", "1")]]⟩ = [0] ∧
    ((⟨[[("Folio", "1")]]⟩ : Heap).write 0 [("Folio", "HACK")]).read 0 ≠
      (⟨[[("Folio", "1")]]⟩ : Heap).read 0 := by
  constructor
  · rfl
  · decide

/-- C4 (amended): the snapshot of `RegistroManager.obtener_todos` does not
alias the store: every snapshot entry is a freshly allocated copy, so writing
any record reachable from the snapshot leaves every stored record unchanged.
(The `app.py` variant `obtener_registros` returns the stored objects
themselves, see the counterexample.) -/
theorem C4_snapshot :
    ∀ (store : List Nat) (h : Heap),
      (∀ a ∈ store, a < h.cells.length) →
      ∀ a2 ∈ (obtener_todos_heap store h).1, ∀ (d : Dict), ∀ b ∈ store,
        (((obtener_todos_heap store h).2).write a2 d).read b = h.read b := by
  intro store h hwf a2 ha2 d b hb
  simp only [obtener_todos_heap] at ha2 ⊢
  rw [List.mem_insertionSort] at ha2
  have hfresh : h.cells.length ≤ a2 := allocCopies_fresh h a2 ha2
  have hblt : b < h.cells.length := hwf b hb
  have hne : a2 ≠ b := by omega
  rw [heap_read_write_ne hne]
  exact allocCopies_read_preserved h b hblt

/-- C4 witness: `C4_snapshot` applied to a one-record store; the snapshot
allocates the copy at address `1`, and writing it leaves the stored record at
address `0` intact. -/
theorem C4_snapshot_witness :
    (((obtener_todos_heap [0] ⟨[[("Folio", "1")]]⟩).2).write 1
        [("Folio", "HACK")]).read 0 =
      (⟨[[("Folio", "1")]]⟩ : Heap).read 0 :=
  C4_snapshot [0] ⟨[[("Folio", "1")]]⟩ (by decide) 1 (by decide)
    [("Folio", "HACK")] 0 (by decide)

/-! ## C3 — text-parser minimal-identity gate -/

theorem dget_parseFields_CURP (t : List Char) (now : String) :
    dget (parseFields t now) "CURP" = (searchCURP t).getD "" := by
  simp only [parseFields]
  simp [dget_dset_ne, dget_dsetdefault_ne, dget_optSet_ne, dget_optSet_self,
    dget_nil]

theorem dget_parseFields_Folio (t : List Char) (now : String) :
    dget (parseFields t now) "Folio" = (searchFolio t).getD "" := by
  simp only [parseFields]
  simp [dget_dset_ne, dget_dsetdefault_ne, dget_optSet_ne, dget_optSet_self,
    dget_nil]

theorem dget_parseFields_Municipio (t : List Char) (now : String) :
    dget (parseFields t now) "Municipio" =
      ((searchMunicipio t).map stripS).getD "" := by
  simp only [parseFields]
  simp [dget_dset_ne, dget_dsetdefault_ne, dget_optSet_ne, dget_optSet_self,
    dget_nil]

theorem dget_parseFields_Sexo (t : List Char) (now : String) :
    dget (parseFields t now) "Sexo" = ((searchSexo t).map sexoMap).getD "" := by
  simp only [parseFields]
  simp [dget_dset_ne, dget_dsetdefault_ne, dget_optSet_ne, dget_optSet_self,
    dget_nil]

theorem clsRun_le_length (cls : Char → Bool) : ∀ l : List Char,
    clsRun cls l ≤ l.length := by
  intro l
  induction l with
  | nil => simp [clsRun]
  | cons c rest ih =>
    rw [clsRun]
    split
    · simp only [List.length_cons]; omega
    · simp

theorem descPos_mem {n k : Nat} (h : k ∈ descPos n) : 1 ≤ k ∧ k ≤ n := by
  induction n with
  | zero => simp [descPos] at h
  | succ n ih =>
    rw [descPos, List.mem_cons] at h
    rcases h with rfl | h
    · omega
    · have := ih h
      omega

theorem matchItems_exact_shape {L : List Char} {cls : Char → Bool} {n : Nat}
    {s : List Char} {gs : List String}
    (h : matchItems [.lit L, .ws, .capExact cls n] s = some gs) :
    ∃ g : String, gs = [g] ∧ g.length = n := by
  simp only [matchItems] at h
  obtain ⟨c1, hc1mem, hc1⟩ := List.exists_of_findSome?_eq_some h
  rw [Option.map_eq_some'] at hc1
  obtain ⟨gs1, hg1, hg1eq⟩ := hc1
  obtain ⟨c2, hc2mem, hc2⟩ := List.exists_of_findSome?_eq_some hg1
  rw [Option.map_eq_some'] at hc2
  obtain ⟨gs2, hg2, hg2eq⟩ := hc2
  obtain ⟨c3, hc3mem, hc3⟩ := List.exists_of_findSome?_eq_some hg2
  by_cases hlit : litAt L s
  · simp only [itemCands, if_pos hlit, List.mem_singleton] at hc1mem
    simp only [itemCands, List.mem_map] at hc2mem
    obtain ⟨k, _, hc2eq⟩ := hc2mem
    by_cases hrun : n ≤ clsRun cls c2.2
    · simp only [itemCands, if_pos hrun, List.mem_singleton] at hc3mem
      rw [hc3mem] at hc3
      simp only [Option.map_some'] at hc3
      injection hc3 with hc3
      have e1 : gs1 = gs := by rw [hc1mem] at hg1eq; simpa using hg1eq
      have e2 : gs2 = gs1 := by rw [← hc2eq] at hg2eq; simpa using hg2eq
      refine ⟨String.mk (c2.2.take n), ?_, ?_⟩
      · rw [← e1, ← e2, ← hc3]
      · show (c2.2.take n).length = n
        rw [List.length_take]
        exact Nat.min_eq_left (le_trans hrun (clsRun_le_length cls c2.2))
    · simp [itemCands, if_neg hrun] at hc3mem
  · simp [itemCands, hlit] at hc1mem

theorem matchItems_plus_shape {L : List Char} {cls : Char → Bool}
    {s : List Char} {gs : List String}
    (h : matchItems [.lit L, .ws, .capPlus cls] s = some gs) :
    ∃ g : String, gs = [g] ∧ g ≠ "" := by
  simp only [matchItems] at h
  obtain ⟨c1, hc1mem, hc1⟩ := List.exists_of_findSome?_eq_some h
  rw [Option.map_eq_some'] at hc1
  obtain ⟨gs1, hg1, hg1eq⟩ := hc1
  obtain ⟨c2, hc2mem, hc2⟩ := List.exists_of_findSome?_eq_some hg1
  rw [Option.map_eq_some'] at hc2
  obtain ⟨gs2, hg2, hg2eq⟩ := hc2
  obtain ⟨c3, hc3mem, hc3⟩ := List.exists_of_findSome?_eq_some hg2
  by_cases hlit : litAt L s
  · simp only [itemCands, if_pos hlit, List.mem_singleton] at hc1mem
    simp only [itemCands, List.mem_map] at hc2mem
    obtain ⟨k, _, hc2eq⟩ := hc2mem
    simp only [itemCands, List.mem_map] at hc3mem
    obtain ⟨len, hlenmem, hc3eq⟩ := hc3mem
    obtain ⟨hlen1, hlen2⟩ := descPos_mem hlenmem
    rw [← hc3eq] at hc3
    simp only [Option.map_some'] at hc3
    injection hc3 with hc3
    have e1 : gs1 = gs := by rw [hc1mem] at hg1eq; simpa using hg1eq
    have e2 : gs2 = gs1 := by rw [← hc2eq] at hg2eq; simpa using hg2eq
    refine ⟨String.mk (c2.2.take len), ?_, ?_⟩
    · rw [← e1, ← e2, ← hc3]
    · intro hempty
      have hdata := congrArg String.data hempty
      simp only [] at hdata
      have hlen3 : (c2.2.take len).length = 0 := by
        rw [hdata]; rfl
      rw [List.length_take] at hlen3
      have := le_trans hlen2 (clsRun_le_length cls c2.2)
      omega
  · simp [itemCands, hlit] at hc1mem

theorem reSearch_of_matchItems {items : List PatItem} {P : List String → Prop}
    (hm : ∀ s gs, matchItems items s = some gs → P gs) :
    ∀ {t : List Char} {gs : List String}, reSearch items t = some gs → P gs := by
  intro t
  induction t with
  | nil => intro gs h; exact hm [] gs h
  | cons c rest ih =>
    intro gs h
    simp only [reSearch] at h
    cases hmi : matchItems items (c :: rest) with
    | some gs2 =>
      rw [hmi] at h
      injection h with h
      exact h ▸ hm _ _ hmi
    | none =>
      rw [hmi] at h
      exact ih h

theorem searchCURP_length {t : List Char} {v : String}
    (h : searchCURP t = some v) : v.length = 18 := by
  unfold searchCURP firstGroup at h
  rw [Option.bind_eq_some] at h
  obtain ⟨gs, hgs, hhead⟩ := h
  have hshape := reSearch_of_matchItems
    (fun s gs h => matchItems_exact_shape h) hgs
  obtain ⟨g, rfl, hlen⟩ := hshape
  simp only [List.head?] at hhead
  injection hhead with hhead
  exact hhead ▸ hlen

theorem searchFolio_nonempty {t : List Char} {v : String}
    (h : searchFolio t = some v) : v ≠ "" := by
  unfold searchFolio firstGroup at h
  rw [Option.bind_eq_some] at h
  obtain ⟨gs, hgs, hhead⟩ := h
  have hshape := reSearch_of_matchItems
    (fun s gs h => matchItems_plus_shape h) hgs
  obtain ⟨g, rfl, hne⟩ := hshape
  simp only [List.head?] at hhead
  injection hhead with hhead
  exact hhead ▸ hne

/-- C3 counterexample: the claim covers `app.py::parsear_texto_acta` (cited
at lines 247-307), which has no minimal-identity gate: on a text containing a
Municipio and a Sexo label but no CURP and no Folio, the `app.py` text stage
yields a record (which `procesar_pdf_con_fallback` treats as found), not
absence. -/
theorem C3_counterexample :
    searchCURP "Municipio de Registro TLAXCALA, Sexo: MUJER".data = none ∧
    searchFolio "Municipio de Registro TLAXCALA, Sexo: MUJER".data = none ∧
    textoFallback "Municipio de Registro TLAXCALA, Sexo: MUJER".data
        "2024-01-01 00:00:00" =
      some [("Municipio", "TLAXCALA"), ("Sexo", "M"), ("Padre", ""),
        ("Madre", ""), ("Tomo", ""), ("Foja", ""),
        ("FechaEscaneo", "2024-01-01 00:00:00")] := by
  refine ⟨by decide, by decide, by decide⟩

/-- C3 (amended): `DataParser.parsear_texto_acta` enforces the
minimal-identity gate: it returns absence exactly when neither the CURP
pattern nor the Folio pattern matches, and otherwise returns a record whose
fields each come from their own independent search (a failing field pattern
does not abort the others).  The `app.py` variant has no gate and returns a
record with empty CURP and Folio in that case, see the counterexample. -/
theorem C3_gate :
    (∀ (t : List Char) (now : String),
      parsear_texto_acta t now = none ↔
        searchCURP t = none ∧ searchFolio t = none) ∧
    (∀ (t : List Char) (now : String) (d : Dict),
      parsear_texto_acta t now = some d →
      dget d "CURP" = (searchCURP t).getD "" ∧
      dget d "Folio" = (searchFolio t).getD "" ∧
      dget d "Municipio" = ((searchMunicipio t).map stripS).getD "" ∧
      dget d "Sexo" = ((searchSexo t).map sexoMap).getD "") := by
  constructor
  · intro t now
    constructor
    · intro h
      unfold parsear_texto_acta at h
      split_ifs at h with hgate
      obtain ⟨h1, h2⟩ := hgate
      rw [dget_parseFields_CURP] at h1
      rw [dget_parseFields_Folio] at h2
      constructor
      · cases hc : searchCURP t with
        | none => rfl
        | some v =>
          rw [hc] at h1
          have := searchCURP_length hc
          rw [Option.getD_some] at h1
          rw [h1] at this
          simp at this
      · cases hf : searchFolio t with
        | none => rfl
        | some v =>
          rw [hf] at h2
          have := searchFolio_nonempty hf
          rw [Option.getD_some] at h2
          exact absurd h2 this
    · intro ⟨h1, h2⟩
      unfold parsear_texto_acta
      rw [if_pos]
      exact ⟨by rw [dget_parseFields_CURP, h1]; rfl,
        by rw [dget_parseFields_Folio, h2]; rfl⟩
  · intro t now d h
    unfold parsear_texto_acta at h
    split_ifs at h with hgate
    injection h with h
    rw [← h]
    exact ⟨dget_parseFields_CURP t now, dget_parseFields_Folio t now,
      dget_parseFields_Municipio t now, dget_parseFields_Sexo t now⟩

/-- C3 witness: `C3_gate` applied to a text whose CURP pattern matches. -/
theorem C3_gate_witness :
    dget [("CURP", "ABCD123456HTLXYZ01"), ("Padre", ""), ("Madre", ""),
        ("Tomo", ""), ("Foja", ""), ("FechaEscaneo", "T1")] "CURP" =
      (searchCURP
        "Clave Única de Registro de Población ABCD123456HTLXYZ01".data).getD "" ∧
    dget [("CURP", "ABCD123456HTLXYZ01"), ("Padre", ""), ("Madre", ""),
        ("Tomo", ""), ("Foja", ""), ("FechaEscaneo", "T1")] "Folio" =
      (searchFolio
        "Clave Única de Registro de Población ABCD123456HTLXYZ01".data).getD "" ∧
    dget [("CURP", "ABCD123456HTLXYZ01"), ("Padre", ""), ("Madre", ""),
        ("Tomo", ""), ("Foja", ""), ("FechaEscaneo", "T1")] "Municipio" =
      ((searchMunicipio
        "Clave Única de Registro de Población ABCD123456HTLXYZ01".data).map
          stripS).getD "" ∧
    dget [("CURP", "ABCD123456HTLXYZ01"), ("Padre", ""), ("Madre", ""),
        ("Tomo", ""), ("Foja", ""), ("FechaEscaneo", "T1")] "Sexo" =
      ((searchSexo
        "Clave Única de Registro de Población ABCD123456HTLXYZ01".data).map
          sexoMap).getD "" :=
  C3_gate.2 "Clave Única de Registro de Población ABCD123456HTLXYZ01".data "T1"
    [("CURP", "ABCD123456HTLXYZ01"), ("Padre", ""), ("Madre", ""),
      ("Tomo", ""), ("Foja", ""), ("FechaEscaneo", "T1")] (by decide)

/-! ## C7 — QR comma repair -/

theorem repairGo_fuel (label repl : List Char) : ∀ (f1 f2 : Nat) (s : List Char),
    s.length ≤ f1 → s.length ≤ f2 →
    repairGo label repl f1 s = repairGo label repl f2 s := by
  intro f1
  induction f1 with
  | zero =>
    intro f2 s h1 _
    have : s = [] := List.eq_nil_of_length_eq_zero (Nat.le_zero.mp h1)
    rw [this]
    cases f2 <;> rfl
  | succ f1 ih =>
    intro f2 s h1 h2
    cases s with
    | nil => cases f2 <;> rfl
    | cons c rest =>
      cases f2 with
      | zero => simp at h2
      | succ f2 =>
        simp only [repairGo]
        by_cases hcond : c ≠ ',' ∧ ciStarts label rest
        · rw [if_pos hcond, if_pos hcond]
          have hd : (rest.drop label.length).length ≤ f1 := by
            rw [List.length_drop]
            simp only [List.length_cons] at h1
            omega
          have hd2 : (rest.drop label.length).length ≤ f2 := by
            rw [List.length_drop]
            simp only [List.length_cons] at h2
            omega
          rw [ih f2 _ hd hd2]
        · rw [if_neg hcond, if_neg hcond]
          have hr : rest.length ≤ f1 := by
            simp only [List.length_cons] at h1
            omega
          have hr2 : rest.length ≤ f2 := by
            simp only [List.length_cons] at h2
            omega
          rw [ih f2 _ hr hr2]

theorem repairLabel_head_match {label repl : List Char} {pre : Char}
    {tail : List Char} (hpre : pre ≠ ',') (hci : ciStarts label tail = true) :
    repairLabel label repl (pre :: tail) =
      pre :: ',' :: (repl ++ repairLabel label repl (tail.drop label.length)) := by
  simp only [repairLabel, List.length_cons, repairGo]
  rw [if_pos ⟨hpre, hci⟩]
  rw [repairGo_fuel label repl tail.length (tail.drop label.length).length
    (tail.drop label.length) (by rw [List.length_drop]; omega) (le_refl _)]

/-- C7 counterexample: on the spec's own input
`"CURP:ABCD123456HTLXYZ01Folio:99999"` the repair regex does not fire (the
only `CURP` occurrence is at the start of the string, with no preceding
character), and the tokenization swallows `Folio` into no field at all: the
parsed record has no `"Folio"` key (its only data field is `CURP`, with value
`"A"`). -/
theorem C7_counterexample :
    dlookup (parsear_qr "CURP:ABCD123456HTLXYZ01Folio:99999".data
      "2024-01-01 00:00:00") "Folio" = none ∧
    repairLabel "CURP".data "CURP".data
        "CURP:ABCD123456HTLXYZ01Folio:99999".data =
      "CURP:ABCD123456HTLXYZ01Folio:99999".data := by
  refine ⟨by decide, by decide⟩

/-- C7 (amended): the repair inserts a comma before every occurrence of the
label `CURP` (case-insensitively) that is immediately preceded by a character
other than a comma — an occurrence at the very start of the string has no
preceding character and is left untouched.  Consequently, on the input
`"CURP:ABCD123456HTLXYZ01Folio:99999"` the repair changes nothing and the
tokenization yields `CURP` as the only field, with value `"A"`; `Folio` does
not become a field. -/
theorem C7_repair :
    (∀ (pre c1 c2 c3 c4 : Char) (rest : List Char), pre ≠ ',' →
      ciEqChar 'C' c1 = true → ciEqChar 'U' c2 = true →
      ciEqChar 'R' c3 = true → ciEqChar 'P' c4 = true →
      repairLabel "CURP".data "CURP".data
          (pre :: c1 :: c2 :: c3 :: c4 :: rest) =
        pre :: ',' :: ("CURP".data ++
          repairLabel "CURP".data "CURP".data rest)) ∧
    (∀ now : String,
      parsear_qr "CURP:ABCD123456HTLXYZ01Folio:99999".data now =
        [("CURP", "A"), ("FechaEscaneo", now)]) := by
  constructor
  · intro pre c1 c2 c3 c4 rest hpre h1 h2 h3 h4
    have hci : ciStarts "CURP".data (c1 :: c2 :: c3 :: c4 :: rest) = true := by
      show ciStarts ['C', 'U', 'R', 'P'] (c1 :: c2 :: c3 :: c4 :: rest) = true
      simp [ciStarts, h1, h2, h3, h4]
    rw [repairLabel_head_match hpre hci]
    rfl
  · intro now
    rfl

/-- C7 witness: `C7_repair` applied to the occurrence `"xcurp:1"` (both parts
at concrete inputs). -/
theorem C7_repair_witness :
    repairLabel "CURP".data "CURP".data
        ('x' :: 'c' :: 'u' :: 'r' :: 'p' :: ':' :: '1' :: []) =
      'x' :: ',' :: ("CURP".data ++
        repairLabel "CURP".data "CURP".data (':' :: '1' :: [])) ∧
    parsear_qr "CURP:ABCD123456HTLXYZ01Folio:99999".data "T0" =
      [("CURP", "A"), ("FechaEscaneo", "T0")] :=
  ⟨C7_repair.1 'x' 'c' 'u' 'r' 'p' (':' :: '1' :: []) (by decide) (by decide)
      (by decide) (by decide) (by decide),
   C7_repair.2 "T0"⟩
